import Mathlib

/-!
Shallow embedding of the Atrack telematics ingestion server
(utilities.js, pattern.js, picture.js, atrackSocket.js) and proofs
about its protocol engine, field decoder and picture reassembler.

JS strings are modelled as `List Char` (or Lean `String` where
convenient), byte buffers as `List Nat` (each element a byte value),
JS `undefined` as `Option.none` and a thrown `Error` as `Except.error`.
-/

/-! ## Bit/Number codec (utilities.js) -/

/-- The character a binary digit renders to in `Number.prototype.toString(2)`. -/
def bitChar (b : Nat) : Char := if b = 1 then '1' else '0'

/-- Numeric value of a binary-digit character (inverse of `bitChar`). -/
def bitVal (c : Char) : Nat := if c = '1' then 1 else 0

/-- Worker for `natToBinaryString`; the fuel argument only serves structural
termination and `v + 1` fuel always suffices. -/
def natToBinAux : Nat → Nat → List Char
  | 0, _ => []
  | fuel + 1, v => if v < 2 then [bitChar v] else natToBinAux fuel (v / 2) ++ [bitChar (v % 2)]

/-- JS `v.toString(2)` for a non-negative integer: most-significant bit
first, a single `'0'` for zero, no leading zeros otherwise. -/
def natToBinaryString (v : Nat) : List Char := natToBinAux (v + 1) v

/-- utilities.js `ParseBinaryToUnsigned`: `parseInt(binaryString, 2)` on a
string of binary digits. -/
def ParseBinaryToUnsigned (l : List Char) : Nat :=
  l.foldl (fun acc c => 2 * acc + bitVal c) 0

/-- JS `str.padStart(n, '0')`. -/
def padStartZero (l : List Char) (n : Nat) : List Char :=
  List.replicate (n - l.length) '0' ++ l

/-- Is the character a binary digit? (the `/^[01]+$/` test of
`ParseBinaryToSinged`). -/
def isBinaryDigit (c : Char) : Bool := c = '0' || c = '1'

/-- utilities.js `ParseBinaryToSinged`: two's-complement decode of a binary
string. Throws `Error('Invalid binary string')` when the string is empty,
contains a non-binary character, or has length 1; otherwise the sign is the
most significant character and a negative value is `parsed - 2 ^ length`. -/
def ParseBinaryToSinged (binaryString : List Char) : Except String Int :=
  if binaryString = [] || !(binaryString.all isBinaryDigit) || binaryString.length = 1 then
    .error "Invalid binary string"
  else
    let absoluteValue : Int := ParseBinaryToUnsigned binaryString
    if binaryString.headD '0' = '1' then
      .ok (-((2 : Int) ^ binaryString.length - absoluteValue))
    else
      .ok absoluteValue

/-- Is the character a decimal digit? -/
def isDecDigit (c : Char) : Bool := '0' ≤ c && c ≤ '9'

/-- Is the character a hexadecimal digit? -/
def isHexDigit (c : Char) : Bool :=
  ('0' ≤ c && c ≤ '9') || ('a' ≤ c && c ≤ 'f') || ('A' ≤ c && c ≤ 'F')

/-- Value of a hexadecimal digit character. -/
def hexVal (c : Char) : Nat :=
  if '0' ≤ c && c ≤ '9' then c.toNat - 48
  else if 'a' ≤ c && c ≤ 'f' then c.toNat - 87
  else if 'A' ≤ c && c ≤ 'F' then c.toNat - 55
  else 0

/-- The longest decimal-digit prefix of a character list, as a number;
`none` when the prefix is empty (JS `parseInt` returning `NaN`). -/
def parseNatPrefix (l : List Char) : Option Nat :=
  let ds := l.takeWhile isDecDigit
  if ds = [] then none
  else some (ds.foldl (fun a c => 10 * a + (c.toNat - 48)) 0)

/-- JS `parseInt(s)` (radix 10): an optional sign followed by the longest
decimal-digit prefix; `none` models `NaN`. Leading whitespace is not
modelled (no call site produces it). -/
def parseIntDec (l : List Char) : Option Int :=
  match l with
  | '-' :: rest => (parseNatPrefix rest).map (fun n => -(n : Int))
  | '+' :: rest => (parseNatPrefix rest).map (fun n => (n : Int))
  | _ => (parseNatPrefix l).map (fun n => (n : Int))

/-- JS `parseInt(s, 16)`: the longest hexadecimal-digit prefix, `none` for
`NaN`. The optional `0x` form and leading sign/whitespace are not modelled
(no call site produces them). -/
def parseIntHex (l : List Char) : Option Nat :=
  let ds := l.takeWhile isHexDigit
  if ds = [] then none
  else some (ds.foldl (fun a c => 16 * a + hexVal c) 0)

/-- utilities.js `ParseHexStringToBinary`:
`parseInt(hexString, 16).toString(2).padStart(size, '0')`. When the hex
parse fails, JS stringifies `NaN` as `"NaN"` and pads that, producing a
non-binary string. -/
def ParseHexStringToBinary (hexString : List Char) (size : Nat) : List Char :=
  match parseIntHex hexString with
  | some v => padStartZero (natToBinaryString v) size
  | none => padStartZero ['N', 'a', 'N'] size

/-- utilities.js `ParseHexStringToSignedInt`. The source's
`binaryString != undefined` guard is always true because
`ParseHexStringToBinary` always returns a string, so the value is always
handed to `ParseBinaryToSinged` (which may throw). -/
def ParseHexStringToSignedInt (hexString : List Char) (size : Nat) : Except String Int :=
  ParseBinaryToSinged (ParseHexStringToBinary hexString size)

/-- JS `String.prototype.split(sep)` for a single-character separator. -/
def splitOnChar (sep : Char) : List Char → List (List Char)
  | [] => [[]]
  | c :: rest =>
    let groups := splitOnChar sep rest
    if c = sep then [] :: groups
    else
      match groups with
      | g :: gs => (c :: g) :: gs
      | [] => [[c]]

/-- JS `String.prototype.split('\r\n')`. -/
def splitCRLF : List Char → List (List Char)
  | [] => [[]]
  | '\r' :: '\n' :: rest => [] :: splitCRLF rest
  | c :: rest =>
    match splitCRLF rest with
    | g :: gs => (c :: g) :: gs
    | [] => [[c]]

/-- `split` on a single-character separator, producing Lean strings. -/
def jsSplit (sep : Char) (s : String) : List String :=
  (splitOnChar sep s.data).map String.mk

/-- Big-endian read of a byte list (`readBigUint64BE` on 8 bytes,
`parseInt(buffer.toString('hex'), 16)` on shorter slices). -/
def readBE (l : List Nat) : Nat :=
  l.foldl (fun a b => 256 * a + b) 0

/-- Fixed-width big-endian byte encoding of a number (the result of
hex-encoding with `padStart` and decoding with `Buffer.from(_, 'hex')`,
for values that fit the width). -/
def beBytes : Nat → Nat → List Nat
  | 0, _ => []
  | k + 1, v => beBytes k (v / 256) ++ [v % 256]

/-- utilities.js `IsStringEmptyOrSpaces`: the string matches `/^ *$/`
(`null` input is not modelled). -/
def IsStringEmptyOrSpaces (l : List Char) : Bool := l.all (· = ' ')

/-- utilities.js `GetIntSliceFromBinary` at its only call mode
(`signed = false`, the default at every call site). The input number is
rendered as a binary string, rejected when longer than `binaryLength`,
else zero-padded to that length. A slice string containing `'~'` is split
into two `parseInt`ed endpoints; a slice without `'~'` selects a single
character. An unparsable or out-of-range slice leaves the output
`undefined` (`none`). Only non-negative inputs are modelled: a negative
JS number would stringify with a `'-'` sign, which no call site
produces. -/
def GetIntSliceFromBinary (inputNum : Nat) (binaryLength : Nat) (slice : String) : Option Nat :=
  let binaryString := natToBinaryString inputNum
  if binaryString.length > binaryLength then none
  else
    let padded := padStartZero binaryString binaryLength
    if '~' ∈ slice.data then
      match splitOnChar '~' slice.data with
      | s1 :: s2 :: _ =>
        match parseIntDec s1, parseIntDec s2 with
        | some start, some stop =>
          if start < stop ∧ 0 ≤ start ∧ stop < (binaryLength : Int) then
            let inverse_start := binaryLength - stop.toNat - 1
            let inverse_end := binaryLength - start.toNat
            some (ParseBinaryToUnsigned ((padded.drop inverse_start).take (inverse_end - inverse_start)))
          else none
        | _, _ => none
      | _ => none
    else
      match parseIntDec slice.data with
      | some k =>
        if k < (binaryLength : Int) then
          match padded.get? ((binaryLength : Int) - k - 1).toNat with
          | some c => some (ParseBinaryToUnsigned [c])
          | none => none
        else none
      | none => none

/-- Decimal value of a digit list. -/
def digitsVal (l : List Char) : Nat := l.foldl (fun a c => 10 * a + (c.toNat - 48)) 0

/-- JS `parseFloat` on strings of the shape produced by
`ParseFloatDecimal`: an optional sign, decimal digits, an optional
`'.'` and further digits; `none` models `NaN`. -/
def jsParseFloat (l : List Char) : Option Rat :=
  let neg := l.headD ' ' = '-'
  let body := if l.headD ' ' = '-' ∨ l.headD ' ' = '+' then l.tail else l
  let intDigits := body.takeWhile isDecDigit
  let rest := body.drop intDigits.length
  let fracDigits := if rest.headD ' ' = '.' then rest.tail.takeWhile isDecDigit else []
  if intDigits = [] ∧ fracDigits = [] then none
  else
    some ((if neg then (-1 : Rat) else 1) *
      ((digitsVal intDigits : Rat) + (digitsVal fracDigits : Rat) / (10 : Rat) ^ fracDigits.length))

/-- JS `str.padStart(n, c)`. -/
def padStartChar (l : List Char) (n : Nat) (c : Char) : List Char :=
  List.replicate (n - l.length) c ++ l

/-- utilities.js `ParseFloatDecimal` on the stringified number: insert a
decimal point `decimalPoint` digits from the right (left-padding with
zeros when the string is too short) and `parseFloat` the result; `none`
models `NaN`. -/
def ParseFloatDecimal (strNum : List Char) (decimalPoint : Nat) : Option Rat :=
  let insertIndex : Int := (strNum.length : Int) - decimalPoint
  if insertIndex < 0 then
    jsParseFloat ('0' :: '.' :: padStartChar strNum decimalPoint '0')
  else
    let input_int := strNum.take insertIndex.toNat
    let input_dec := strNum.drop insertIndex.toNat
    jsParseFloat (input_int ++ '.' :: input_dec)

example : natToBinaryString 11 = ['1', '0', '1', '1'] := by decide

example : ParseBinaryToUnsigned (padStartZero (natToBinaryString 11) 8) = 11 := by decide

example : GetIntSliceFromBinary 11 4 "1~2" = some 1 := by decide

example : GetIntSliceFromBinary 127 8 "3~5" = some 7 := by decide

example : GetIntSliceFromBinary 127 8 "0" = some 1 := by decide

example : parseIntHex ['D', '0', 'D', 'C'] = some 53468 := by decide

example : ParseHexStringToSignedInt ['Z', 'Z', 'Z', 'Z'] 32 = .error "Invalid binary string" := rfl

example : ParseFloatDecimal ['6', '1', '6', '2'] 2 = some 61.62 := by
  simp +decide [ParseFloatDecimal, jsParseFloat, padStartChar, digitsVal, isDecDigit,
    List.takeWhile_cons]
  norm_num

example : ParseFloatDecimal ['5'] 2 = some 0.05 := by
  simp +decide [ParseFloatDecimal, jsParseFloat, padStartChar, digitsVal, isDecDigit,
    List.takeWhile_cons]
  norm_num

/-! ## Field decoder (pattern.js) -/

/-- A JS runtime value as it flows through the field decoder. `arr`
carries decoded `(name, dbtype, value)` records. -/
inductive JSVal where
  | num (q : Rat)
  | nan
  | bool (b : Bool)
  | str (s : String)
  | arr (l : List (String × String × JSVal))

/-- One decoded output record: field name, storage kind (`dbtype`) and value. -/
abbrev DecodedValue := String × String × JSVal

/-- One field definition from the pattern catalog: display name, storage
kind, and the kind-specific optional parameters used by the decoders. -/
inductive PatternInfo where
  | mk (name dbtype : String) (multiplier : Option Rat) (decimals : Option Nat)
      (dict : List (String × String)) (tables : List (String × PatternInfo))
      (pressure_slope pressure_const temp_slope temp_const : Option Rat)

def PatternInfo.name : PatternInfo → String
  | .mk n _ _ _ _ _ _ _ _ _ => n

def PatternInfo.dbtype : PatternInfo → String
  | .mk _ d _ _ _ _ _ _ _ _ => d

def PatternInfo.multiplier : PatternInfo → Option Rat
  | .mk _ _ m _ _ _ _ _ _ _ => m

def PatternInfo.decimals : PatternInfo → Option Nat
  | .mk _ _ _ d _ _ _ _ _ _ => d

def PatternInfo.dict : PatternInfo → List (String × String)
  | .mk _ _ _ _ d _ _ _ _ _ => d

def PatternInfo.tables : PatternInfo → List (String × PatternInfo)
  | .mk _ _ _ _ _ t _ _ _ _ => t

def PatternInfo.pressure_slope : PatternInfo → Option Rat
  | .mk _ _ _ _ _ _ p _ _ _ => p

def PatternInfo.pressure_const : PatternInfo → Option Rat
  | .mk _ _ _ _ _ _ _ p _ _ => p

def PatternInfo.temp_slope : PatternInfo → Option Rat
  | .mk _ _ _ _ _ _ _ _ t _ => t

def PatternInfo.temp_const : PatternInfo → Option Rat
  | .mk _ _ _ _ _ _ _ _ _ t => t

/-- JS number rendering, exact for integers (`(35).toString() = "35"`).
Non-integer rationals do not reach the call sites modelled here. -/
def jsNumToString (q : Rat) : String := if q.den = 1 then toString q.num else toString q

/-- JS `v < 0` as used on decoder outputs; `NaN < 0` is false. -/
def jsLtZero (v : JSVal) : Bool :=
  match v with
  | .num q => q < 0
  | _ => false

/-- pattern.js `GetValueInt`: a string raw value is `parseInt`ed (`NaN`
modelled as `.nan`), then multiplied by the multiplier when that is
truthy (present and non-zero). Non-numeric, non-string raw values pass
through unchanged (none occurs at a call site). -/
def GetValueInt (rawValue : JSVal) (patternInfo : PatternInfo) : JSVal :=
  let outputValue : JSVal :=
    match rawValue with
    | .str s =>
      match parseIntDec s.data with
      | some n => .num n
      | none => .nan
    | v => v
  match outputValue with
  | .num q =>
    match patternInfo.multiplier with
    | some m => if m ≠ 0 then .num (q * m) else .num q
    | none => .num q
  | v => v

/-- pattern.js `GetValueFloat`: the `GetValueInt` result, re-read as a
fixed-point decimal via `ParseFloatDecimal` when `decimals` is truthy. -/
def GetValueFloat (rawValue : JSVal) (patternInfo : PatternInfo) : JSVal :=
  let outputValue := GetValueInt rawValue patternInfo
  match patternInfo.decimals with
  | some d =>
    if d ≠ 0 then
      match outputValue with
      | .num q =>
        match ParseFloatDecimal (jsNumToString q).data d with
        | some r => .num r
        | none => .nan
      | _ => .nan
    else outputValue
  | none => outputValue

/-- pattern.js `GetValueBoolean`: `parseInt(rawValue) === 1`. -/
def GetValueBoolean (rawValue : JSVal) : Bool :=
  match rawValue with
  | .str s => parseIntDec s.data == some 1
  | .num q => q == 1
  | _ => false

/-- pattern.js `GetValueString`: dictionary lookup of the raw value
(numbers are coerced to their string form by JS property access);
`none` when the key is absent or there is no dictionary. -/
def GetValueString (rawValue : JSVal) (patternInfo : PatternInfo) : Option String :=
  let key :=
    match rawValue with
    | .str s => s
    | .num q => jsNumToString q
    | .nan => "NaN"
    | .bool b => if b then "true" else "false"
    | .arr _ => ""
  patternInfo.dict.lookup key

/-- pattern.js `GetValueGForce`: the first 12 characters split into three
4-character hex groups, each handed to `ParseHexStringToSignedInt`
(which throws on an unparsable group — the source's
`xValue != undefined` guards and the final empty-output check are dead
code, since every parse either yields a number or throws). The caller
handles the `typeof rawValue != "string"` half of the length guard. -/
def GetValueGForce (rawValue : String) (patternInfo : PatternInfo) :
    Except String (Option (List DecodedValue)) :=
  if rawValue.data.length < 12 then .ok none
  else do
    let r := rawValue.data.take 12
    let xHexString := r.take 4
    let yHexString := (r.drop 4).take 4
    let zHexString := (r.drop 8).take 4
    let xValue ← ParseHexStringToSignedInt xHexString 32
    let yValue ← ParseHexStringToSignedInt yHexString 32
    let zValue ← ParseHexStringToSignedInt zHexString 32
    pure (some
      [(patternInfo.name ++ "_x", "int", .num xValue),
       (patternInfo.name ++ "_y", "int", .num yValue),
       (patternInfo.name ++ "_z", "int", .num zValue)])

/-- JS `rawValue.match(/.{1,8}/g)`: consecutive 8-character groups, the
last possibly shorter; the empty string gives `null` in JS (which the
caller would crash on) and is modelled as the empty group list. -/
def chunk8 : List Char → List (List Char)
  | [] => []
  | a :: b :: c :: d :: e :: f :: g :: h :: rest => [a, b, c, d, e, f, g, h] :: chunk8 rest
  | l => [l]

/-- pattern.js `GetValueTPMS`. The source's pressure-coefficient guard is
`pressure_slope == undefined || !pressure_const == undefined`; the second
disjunct compares a boolean to `undefined` and is always false in JS, so
only `pressure_slope` is effectively checked and a missing
`pressure_const` flows into the arithmetic as `undefined`, making the
pressure value `NaN`. `NaN < 0` is false, so the NaN survives the
floor-at-zero clamp and is emitted. -/
def GetValueTPMS (rawValue : String) (patternInfo : PatternInfo) :
    Option (List DecodedValue) :=
  if rawValue.data.length % 8 ≠ 0 then none
  else if patternInfo.pressure_slope = none then none
  else if patternInfo.temp_slope = none ∨ patternInfo.temp_const = none then none
  else
    match patternInfo.pressure_slope, patternInfo.temp_slope, patternInfo.temp_const with
    | some PRESSURE_SLOPE, some TEMP_SLOPE, some TEMP_CONST =>
      let rawValueArray := chunk8 rawValue.data
      let output := rawValueArray.enum.flatMap (fun g =>
        let tire_temp : JSVal :=
          match parseIntHex ((g.2.drop 4).take 2) with
          | some v => .num (TEMP_SLOPE * v + TEMP_CONST)
          | none => .nan
        let tire_temp := if jsLtZero tire_temp then JSVal.num 0 else tire_temp
        let tire_pressure : JSVal :=
          match parseIntHex ((g.2.drop 6).take 2), patternInfo.pressure_const with
          | some v, some c => .num (PRESSURE_SLOPE * v + c)
          | _, _ => .nan
        let tire_pressure := if jsLtZero tire_pressure then JSVal.num 0 else tire_pressure
        [("tire_temp_" ++ toString (g.1 + 1), "int", tire_temp),
         ("tire_pressure_" ++ toString (g.1 + 1), "float", tire_pressure)])
      if output.isEmpty then none else some output
    | _, _, _ => none

/-- pattern.js `GetValue` restricted to the six non-`U8` kinds. `GetValueU8`
only ever reaches this dispatch, because its `dbtype != "U8"` guard
excludes nested `U8` tables. -/
def GetValueScalar (rawValue : JSVal) (patternInfo : PatternInfo) :
    Except String (Option JSVal) :=
  match patternInfo.dbtype with
  | "int" => pure (some (GetValueInt rawValue patternInfo))
  | "float" => pure (some (GetValueFloat rawValue patternInfo))
  | "boolean" => pure (some (.bool (GetValueBoolean rawValue)))
  | "string" => pure ((GetValueString rawValue patternInfo).map .str)
  | "g_force" =>
    match rawValue with
    | .str s => (GetValueGForce s patternInfo).map (fun o => o.map .arr)
    | _ => pure none
  | "tpms" =>
    match rawValue with
    | .str s => pure ((GetValueTPMS s patternInfo).map .arr)
    | _ => pure none
  | _ => pure none

/-- pattern.js `GetValueU8`: extract each configured bit slice of the
input and decode it with the sub-field's own kind. The source's
`0 <= inputValue <= 255` check chains in JS as
`(0 <= inputValue) <= 255` and is always true. Negative or fractional
inputs would stringify outside the binary-string grammar of
`GetIntSliceFromBinary` and occur at no call site; they are modelled as
an undefined slice. -/
def GetValueU8 (rawValue : JSVal) (patternInfo : PatternInfo) :
    Except String (Option (List DecodedValue)) := do
  let inputValue := GetValueInt rawValue patternInfo
  let outputList ← patternInfo.tables.foldlM (fun acc bt => do
    let bitsValue : Option Nat :=
      match inputValue with
      | .num q => if q.den = 1 ∧ 0 ≤ q.num then GetIntSliceFromBinary q.num.toNat 8 bt.1 else none
      | _ => none
    match bitsValue with
    | some bits =>
      if bt.2.dbtype ≠ "U8" then do
        let tablesValue ← GetValueScalar (.num bits) bt.2
        match tablesValue with
        | some v => pure (acc ++ [(bt.2.name, bt.2.dbtype, v)])
        | none => pure acc
      else pure acc
    | none => pure acc) ([] : List DecodedValue)
  if outputList.isEmpty then pure none else pure (some outputList)

/-- pattern.js `GetValue`: dispatch on the `dbtype` string. -/
def GetValue (rawValue : JSVal) (patternInfo : PatternInfo) :
    Except String (Option JSVal) :=
  if patternInfo.dbtype = "U8" then (GetValueU8 rawValue patternInfo).map (fun o => o.map .arr)
  else GetValueScalar rawValue patternInfo

/-- Worker for `ExtractValue`: walk the raw tokens with their running
index, skipping tokens whose format name is not in the catalog, and
appending the decoded records in order. -/
def ExtractValueAux (pat : List (String × PatternInfo)) (patternNames : List String) :
    List String → Nat → Except String (List DecodedValue)
  | [], _ => pure []
  | x :: xs, i => do
    let here ←
      match patternNames.get? i with
      | some key =>
        match pat.lookup key with
        | some pinfo => do
          let value ← GetValue (.str x) pinfo
          match value with
          | some (.arr lst) => pure lst
          | some v => pure [(pinfo.name, pinfo.dbtype, v)]
          | none => pure ([] : List DecodedValue)
        | none => pure ([] : List DecodedValue)
      | none => pure ([] : List DecodedValue)
    let rest ← ExtractValueAux pat patternNames xs (i + 1)
    pure (here ++ rest)

/-- pattern.js `ExtractValue`: decode every raw token from `offset` on
against the catalog entry named by the format at the same position;
`none` when nothing at all was decoded. -/
def ExtractValue (pat : List (String × PatternInfo)) (input : List String)
    (patternNames : List String) (offset : Nat) :
    Except String (Option (List DecodedValue)) := do
  let outputValueList ← ExtractValueAux pat patternNames (input.drop offset) offset
  if outputValueList.length ≠ 0 then pure (some outputValueList) else pure none

/-! ## Picture reassembler (picture.js) -/

/-- A JS number-valued instance field: either a (big) integer or `NaN`.
`undefined` is an enclosing `Option`. -/
inductive JSNumV where
  | int (n : Int)
  | nan
deriving DecidableEq

/-- JS template-string rendering of a possibly-undefined number. -/
def jsShowOptNum : Option JSNumV → String
  | none => "undefined"
  | some .nan => "NaN"
  | some (.int n) => toString n

/-- The environment variables read by picture.js. -/
structure PictureEnv where
  PICTURE_SAVE_TARGET : Option String
  PICTURE_BUCKET : Option String
  PICTURE_PATH : Option String
  PICTURE_EXT : Option String

/-- The five components extracted from a picture packet (after the 2-byte
frame-type prefix and header have been removed by the connection
handler). -/
structure PictureFrameInfo where
  pictureRTC : Nat
  picturePackageID : Nat
  pictureTotalID : Nat
  picturePackageSize : Nat
  pictureData : List Nat

/-- picture.js `ExtractPictureFrame`: 4-byte RTC, 1-byte current-package
index, 1-byte total-package count, 2-byte package size, remaining bytes
payload. -/
def ExtractPictureFrame (buffer : List Nat) : PictureFrameInfo :=
  { pictureRTC := readBE (buffer.take 4)
    picturePackageID := readBE ((buffer.drop 4).take 1)
    pictureTotalID := readBE ((buffer.drop 5).take 1)
    picturePackageSize := readBE ((buffer.drop 6).take 2)
    pictureData := buffer.drop 8 }

/-- picture.js `CheckPictureFrame`: a pass-through placeholder. -/
def CheckPictureFrame (_info : PictureFrameInfo) : Bool := true

/-- The mutable state of one in-progress picture transfer. -/
structure PictureState where
  pictureRTC : Nat
  currentPackageID : Nat
  totalPackageCount : Nat
  pictureContent : List Nat
  saveTarget : String
  deviceID : Option JSNumV
  dbBucket : Option String
  filePath : String
  fileExt : String
  fileName : String
  fullFilePath : String

/-- The `Picture` constructor: seed the transfer from the first packet.
It performs no write to any storage sink. -/
def pictureNew (env : PictureEnv) (firstBuffer : List Nat) (deviceID : Option JSNumV) :
    PictureState :=
  let info := ExtractPictureFrame firstBuffer
  let saveTarget := if env.PICTURE_SAVE_TARGET = some "folder" then "folder" else "database"
  let filePath :=
    match env.PICTURE_PATH with
    | some p => if p ≠ "" ∧ p.trim ≠ "" then p else "."
    | none => "."
  let fileExt :=
    match env.PICTURE_EXT with
    | some e => if e ≠ "" then e else "jpg"
    | none => "jpg"
  let fileName := jsShowOptNum deviceID ++ "_" ++ toString info.pictureRTC ++ "." ++ fileExt
  { pictureRTC := info.pictureRTC
    currentPackageID := info.picturePackageID
    totalPackageCount := info.pictureTotalID
    pictureContent := info.pictureData
    saveTarget := saveTarget
    deviceID := deviceID
    dbBucket := env.PICTURE_BUCKET
    filePath := filePath
    fileExt := fileExt
    fileName := fileName
    fullFilePath := filePath ++ "/" ++ fileName }

/-- A write performed by the picture reassembler on completion: either to
the filesystem sink or to the object-storage sink. -/
inductive PicWrite where
  | folder (fullFilePath : String) (content : List Nat)
  | db (bucket : Option String) (objectName : String) (content : List Nat)

/-- picture.js `isDone`: the last-seen package index equals the declared
total-package count. -/
def Picture.isDone (s : PictureState) : Bool := s.currentPackageID == s.totalPackageCount

/-- picture.js `AddPicturePackage`: append the packet payload, update the
last-seen package index, and on reaching the declared total dispatch the
accumulated content to the configured sink. Returns the updated state,
the writes performed, and the source's boolean result. -/
def AddPicturePackage (s : PictureState) (pictureBuffer : List Nat) :
    PictureState × List PicWrite × Bool :=
  let pictureInfo := ExtractPictureFrame pictureBuffer
  if !CheckPictureFrame pictureInfo then (s, [], false)
  else
    let content := s.pictureContent ++ pictureInfo.pictureData
    let s' := { s with pictureContent := content, currentPackageID := pictureInfo.picturePackageID }
    let writes :=
      if s.totalPackageCount == pictureInfo.picturePackageID then
        match s.saveTarget with
        | "folder" => [PicWrite.folder s.fullFilePath content]
        | "database" => [PicWrite.db s.dbBucket (jsShowOptNum s.deviceID ++ "/" ++ s.fileName) content]
        | _ => []
      else []
    (s', writes, true)

/-! ## Connection state machine (atrackSocket.js) -/

/-- The side effects of processing one inbound frame: socket writes
(acknowledgments), time-series writes `(deviceID, timestamp, data)`, and
picture-sink writes. -/
structure Effects where
  socketWrites : List (List Nat)
  dbWrites : List (String × String × Option (List DecodedValue))
  picWrites : List PicWrite

/-- No side effects. -/
def noEffects : Effects := { socketWrites := [], dbWrites := [], picWrites := [] }

/-- The mutable per-connection state of `ClientSocket`. The three
customization flags are tri-state (`none` = still unknown). -/
structure ClientSocketState where
  deviceID : Option JSNumV
  lastAlive : Nat
  seqNum : Option JSNumV
  reportType : Option String
  isReportCustom : Option Bool
  isReportJ1708 : Option Bool
  isReportJ1939 : Option Bool
  reportFormatType : Option String
  reportJ1XXXFormat : Option (List String)
  reportCustomFormat : Option (List String)
  reportFinalFormat : Option (List String)
  picture : Option PictureState

/-- The state set up by the `ClientSocket` constructor. -/
def initialClientState (now : Nat) : ClientSocketState :=
  { deviceID := none, lastAlive := now, seqNum := none, reportType := none,
    isReportCustom := none, isReportJ1708 := none, isReportJ1939 := none,
    reportFormatType := none, reportJ1XXXFormat := none, reportCustomFormat := none,
    reportFinalFormat := none, picture := none }

def cmdForm : String := "$FORM"

def cmdJ1708 : String := "$1708"

def cmdJ1939 : String := "$FMSC"

/-- The fixed base report field names. -/
def reportBaseFormat : List String :=
  ["GPSTime", "RTCTime", "SendTime", "LNG", "LAT", "Heading", "ReportID", "Odometer", "HDOP",
   "InputStatus", "Speed", "OutputStatus", "AnalogInputValue", "DriverID", "1stTemp", "2ndTemp",
   "TextMsg"]

/-- The acknowledgment frame bytes: the source builds the hex string
`fe02` + device id `padStart(16, '0')` + sequence `padStart(4, '0')` and
decodes it with `Buffer.from(_, 'hex')`; for the in-range values produced
by frame decoding (`0 ≤ id < 2^64`, `0 < seq < 2^16`) that is exactly
this 12-byte list. -/
def ackMsg (deviceID seqNum : Int) : List Nat :=
  [0xFE, 0x02] ++ beBytes 8 deviceID.toNat ++ beBytes 2 seqNum.toNat

/-- atrackSocket.js `SendACK`: `if (this.deviceID && this.seqNum)` — an
unset (`undefined`), `NaN` or zero device id or sequence number is falsy
and suppresses the write. -/
def SendACK (s : ClientSocketState) : List (List Nat) :=
  match s.deviceID, s.seqNum with
  | some (.int d), some (.int q) => if d ≠ 0 ∧ q ≠ 0 then [ackMsg d q] else []
  | _, _ => []

/-- atrackSocket.js `HandleKeepAliveMsg`: device id from bytes 2..9
(`readBigUint64BE`), sequence number from bytes 10..11 (hex parse). -/
def HandleKeepAliveMsg (s : ClientSocketState) (buffer : List Nat) : ClientSocketState :=
  { s with deviceID := some (.int (readBE ((buffer.drop 2).take 8)))
           seqNum := some (.int (readBE ((buffer.drop 10).take 2))) }

/-- atrackSocket.js `CheckReportType`: sniff once; byte 2 equal to an
ASCII comma means ascii, anything else (including a too-short buffer)
means binary. -/
def CheckReportType (s : ClientSocketState) (buffer : List Nat) : ClientSocketState :=
  if s.reportType ≠ none then s
  else if (buffer.drop 2).take 1 = [0x2C] then { s with reportType := some "ascii" }
  else { s with reportType := some "binary" }

/-- `Buffer.indexOf(byte, startIndex)`: the absolute index of the first
occurrence at or after `startIndex`; `none` models JS `-1`. -/
def indexOfFrom (l : List Nat) (b : Nat) (start : Nat) : Option Nat :=
  ((l.drop start).findIdx? (· == b)).map (· + start)

/-- utilities.js `GetHeaderValueAscii` (default `'String'` type): the
ascii text up to the next comma and the index just past it. When no comma
is found JS `indexOf` returns `-1`, `subarray(start, -1)` drops the final
byte, and the returned next index is `-1 + 1 = 0`. -/
def GetHeaderValueAscii (inputBuffer : List Nat) (startIndex : Nat) : List Char × Nat :=
  match indexOfFrom inputBuffer 0x2C startIndex with
  | some endIndex =>
    (((inputBuffer.drop startIndex).take (endIndex - startIndex)).map Char.ofNat, endIndex + 1)
  | none =>
    (((inputBuffer.drop startIndex).take (inputBuffer.length - 1 - startIndex)).map Char.ofNat, 0)

/-- utilities.js `GetHeaderValueAscii` with `type = 'Int'`: the same field
run through `parseInt` (`NaN` modelled as `.nan`). -/
def GetHeaderValueAsciiInt (inputBuffer : List Nat) (startIndex : Nat) : JSNumV × Nat :=
  let (s, next) := GetHeaderValueAscii inputBuffer startIndex
  (match parseIntDec s with
   | some n => .int n
   | none => .nan, next)

/-- atrackSocket.js `CheckReportMsg`: reject blank lines and lines whose
first character is not a decimal digit. -/
def CheckReportMsg (msg : List Char) : Bool :=
  if IsStringEmptyOrSpaces msg then false
  else if !isDecDigit (msg.headD ' ') then false
  else true

/-- atrackSocket.js `WriteReport`: decode each acceptable report line
against the final format and emit one time-series write per line. The
timestamp is the line's second field (JS renders a missing field as
`"undefined"`) padded with nine zeros to nanoseconds. -/
def WriteReport (pat : List (String × PatternInfo)) (s : ClientSocketState)
    (reportLines : List (List Char)) :
    Except String (List (String × String × Option (List DecodedValue))) :=
  reportLines.foldlM (fun acc line => do
    if CheckReportMsg line = false then pure acc
    else do
      let frame := (splitOnChar ',' line).map String.mk
      let data ← ExtractValue pat frame (s.reportFinalFormat.getD []) 0
      let timestamp := (frame.getD 1 "undefined") ++ "000000000"
      pure (acc ++ [(jsShowOptNum s.deviceID, timestamp, data)])) []

/-- atrackSocket.js `HandleReportMsgAscii`: parse the four header fields
(CRC, length, sequence, device id), adopt the device id when still
unknown, always adopt the sequence number, and only then — when the
report format has been finalized — decode and write the report body.
An unresolved format returns before the body is read: nothing is written
and nothing is buffered. -/
def HandleReportMsgAscii (pat : List (String × PatternInfo)) (s : ClientSocketState)
    (buffer : List Nat) : Except String (ClientSocketState × Effects) := do
  let (_bufferCRC, i1) := GetHeaderValueAscii buffer 3
  let (_bufferLength, i2) := GetHeaderValueAscii buffer i1
  let (bufferSeqNum, i3) := GetHeaderValueAsciiInt buffer i2
  let (bufferID, i4) := GetHeaderValueAsciiInt buffer i3
  let s1 := if s.deviceID = none then { s with deviceID := some bufferID } else s
  let s2 := { s1 with seqNum := some bufferSeqNum }
  match s2.reportFinalFormat with
  | none => pure (s2, noEffects)
  | some _ =>
    let dataFrame := (buffer.drop i4).map Char.ofNat
    let dataFrameLines := splitCRLF dataFrame
    let writes ← WriteReport pat s2 dataFrameLines
    pure (s2, { noEffects with dbWrites := writes })

/-- atrackSocket.js `HandleReportMsgBinary`: unimplemented in the source. -/
def HandleReportMsgBinary (s : ClientSocketState) (_buffer : List Nat) :
    ClientSocketState × Effects := (s, noEffects)

/-- atrackSocket.js `HandleReportMsg`: sniff the format once, then route. -/
def HandleReportMsg (pat : List (String × PatternInfo)) (s : ClientSocketState)
    (buffer : List Nat) : Except String (ClientSocketState × Effects) :=
  let s1 := CheckReportType s buffer
  if s1.reportType = some "ascii" then HandleReportMsgAscii pat s1 buffer
  else if s1.reportType = some "binary" then pure (HandleReportMsgBinary s1 buffer)
  else pure (s1, noEffects)

/-- Is the character kept by the `/['"]+/g` quote-removal replace? -/
def notQuoteChar (c : Char) : Bool := !(c = '"' ∨ c = Char.ofNat 39)

/-- atrackSocket.js `ReportFormatSplit`: remove quote characters, split on
`'%'` and unconditionally `shift` off the first element (the empty string
before the leading `'%'` of a well-formed format). -/
def ReportFormatSplit (reportFormat : String) : List String :=
  ((splitOnChar '%' (reportFormat.data.filter notQuoteChar)).map String.mk).tail

/-- JS `report.replace(/^"(.*)"$/, '$1')`: strip one pair of surrounding
double quotes; `.` matches neither a newline nor a carriage return, so a
quoted body containing one is left untouched. -/
def stripOuterQuotes (s : String) : String :=
  let l := s.data
  if 2 ≤ l.length ∧ l.head? = some '"' ∧ l.getLast? = some '"' ∧
      ((l.drop 1).dropLast.all fun c => !(c = '\n' ∨ c = '\r')) then
    String.mk ((l.drop 1).dropLast)
  else s

/-- JS string truthiness: only the empty string is falsy. -/
def jsTruthyStr (s : String) : Bool := s != ""

/-- atrackSocket.js `SaveReportFormat`: record one command response. Each
of the three commands is recorded at most once; a non-empty quoted format
string marks the customization present and stores its split token list,
an empty one marks it absent. The format argument sits at value index 3
for `$FORM`, 0 for `$1708` and 1 for `$FMSC`. Call sites guarantee the
input has a command and an argument part; a missing part would throw in
JS at the subsequent property access. -/
def SaveReportFormat (s : ClientSocketState) (input : List String) : ClientSocketState :=
  let cmd := input.getD 0 ""
  let value := jsSplit ',' (input.getD 1 "")
  if cmd = cmdForm then
    if s.isReportCustom = none then
      let report := value.getD 3 ""
      if jsTruthyStr (stripOuterQuotes report) then
        { s with reportCustomFormat := some (ReportFormatSplit report), isReportCustom := some true }
      else { s with isReportCustom := some false }
    else s
  else if cmd = cmdJ1708 then
    if s.isReportJ1708 = none then
      let report := value.getD 0 ""
      if jsTruthyStr (stripOuterQuotes report) then
        { s with reportJ1XXXFormat := some (ReportFormatSplit report), isReportJ1708 := some true }
      else { s with isReportJ1708 := some false }
    else s
  else if cmd = cmdJ1939 then
    if s.isReportJ1939 = none then
      let report := value.getD 1 ""
      if jsTruthyStr (stripOuterQuotes report) then
        { s with reportJ1XXXFormat := some (ReportFormatSplit report), isReportJ1939 := some true }
      else { s with isReportJ1939 := some false }
    else s
  else s

/-- atrackSocket.js `UpdateReportFormatStatus`: once no flag is still
unknown, resolve the report format type and the final (effective) field
list; returns whether resolution has happened. The `getD []` models a
`concat(undefined)` that cannot be reached through `SaveReportFormat`,
which always stores a token list together with a true flag. -/
def UpdateReportFormatStatus (s : ClientSocketState) : ClientSocketState × Bool :=
  if s.isReportCustom = none ∨ s.isReportJ1708 = none ∨ s.isReportJ1939 = none then (s, false)
  else
    let c := s.isReportCustom.getD false
    let j8 := s.isReportJ1708.getD false
    let j9 := s.isReportJ1939.getD false
    if c ∧ ¬j8 ∧ ¬j9 then
      ({ s with reportFormatType := some "custom",
                reportFinalFormat := some (reportBaseFormat ++ s.reportCustomFormat.getD []) }, true)
    else if ¬c ∧ j8 ∧ ¬j9 then
      ({ s with reportFormatType := some "j1708",
                reportFinalFormat := some (reportBaseFormat ++ s.reportJ1XXXFormat.getD []) }, true)
    else if ¬c ∧ ¬j8 ∧ j9 then
      ({ s with reportFormatType := some "j1939",
                reportFinalFormat := some (reportBaseFormat ++ s.reportJ1XXXFormat.getD []) }, true)
    else
      ({ s with reportFormatType := some "base", reportFinalFormat := some reportBaseFormat }, true)

/-- atrackSocket.js `HandleOtherMsg`: when the connection is in ascii
mode, split the text on CRLF and treat each non-blank line containing
`'='` as a command-response candidate; responses to one of the three
format-query commands are saved and resolution is re-evaluated. -/
def HandleOtherMsg (s : ClientSocketState) (buffer : List Nat) : ClientSocketState :=
  if s.reportType = some "ascii" then
    let dataAscii := buffer.map Char.ofNat
    let dataSplit := splitCRLF dataAscii
    dataSplit.foldl (fun st line =>
      if IsStringEmptyOrSpaces line then st
      else
        let dataCmdSplit := (splitOnChar '=' line).map String.mk
        if dataCmdSplit.length > 1 then
          if dataCmdSplit.getD 0 "" = cmdForm ∨ dataCmdSplit.getD 0 "" = cmdJ1708 ∨
              dataCmdSplit.getD 0 "" = cmdJ1939 then
            (UpdateReportFormatStatus (SaveReportFormat st dataCmdSplit)).1
          else st
        else st) s
  else s

/-- atrackSocket.js `HandlePictureMsg`: parse the binary header (the
sequence number at bytes 6..7 is adopted), take the data frame from byte
16, and either start a new transfer (first packet — no completion check,
no write) or feed the existing one, discarding it once done. -/
def HandlePictureMsg (env : PictureEnv) (s : ClientSocketState) (buffer : List Nat) :
    ClientSocketState × Effects :=
  let bufferSeqNum := readBE ((buffer.drop 6).take 2)
  let s1 := { s with seqNum := some (.int bufferSeqNum) }
  let pictureDataFrame := buffer.drop 16
  match s1.picture with
  | none => ({ s1 with picture := some (pictureNew env pictureDataFrame s1.deviceID) }, noEffects)
  | some pic =>
    let (pic', writes, _) := AddPicturePackage pic pictureDataFrame
    if Picture.isDone pic' then
      ({ s1 with picture := none }, { noEffects with picWrites := writes })
    else
      ({ s1 with picture := some pic' }, { noEffects with picWrites := writes })

/-- atrackSocket.js `RecievedData`: classify the frame by its first two
bytes, dispatch to the matching handler, update the liveness timestamp
and send the acknowledgment (built from the state as updated by the
handler). A thrown decode error aborts processing before the liveness
update and the acknowledgment, as in JS. -/
def RecievedData (pat : List (String × PatternInfo)) (env : PictureEnv) (now : Nat)
    (s : ClientSocketState) (buffer : List Nat) : Except String (ClientSocketState × Effects) := do
  let pfx := buffer.take 2
  let (s1, eff) ←
    if pfx = [0xFE, 0x02] ∧ buffer.length = 12 then
      pure (HandleKeepAliveMsg s buffer, noEffects)
    else if pfx = [0x40, 0x50] then
      HandleReportMsg pat s buffer
    else if pfx = [0x40, 0x52] then
      pure (HandlePictureMsg env s buffer)
    else
      pure (HandleOtherMsg s buffer, noEffects)
  let s2 := { s1 with lastAlive := now }
  pure (s2, { eff with socketWrites := eff.socketWrites ++ SendACK s2 })

/-! ## Supporting lemmas -/

theorem bitVal_le_one (c : Char) : bitVal c ≤ 1 := by
  unfold bitVal; split <;> simp

theorem parse_foldl_acc (l : List Char) (a : Nat) :
    l.foldl (fun acc c => 2 * acc + bitVal c) a = a * 2 ^ l.length + ParseBinaryToUnsigned l := by
  induction l generalizing a with
  | nil => simp [ParseBinaryToUnsigned]
  | cons c l ih =>
    simp only [List.foldl_cons, List.length_cons, ParseBinaryToUnsigned] at *
    rw [ih, ih (2 * 0 + bitVal c)]
    ring

theorem ParseBinaryToUnsigned_cons (c : Char) (l : List Char) :
    ParseBinaryToUnsigned (c :: l) = bitVal c * 2 ^ l.length + ParseBinaryToUnsigned l := by
  show (c :: l).foldl (fun acc c => 2 * acc + bitVal c) 0 = _
  rw [List.foldl_cons, parse_foldl_acc]
  ring_nf

theorem ParseBinaryToUnsigned_append (l1 l2 : List Char) :
    ParseBinaryToUnsigned (l1 ++ l2) =
      ParseBinaryToUnsigned l1 * 2 ^ l2.length + ParseBinaryToUnsigned l2 := by
  show (l1 ++ l2).foldl _ 0 = _
  rw [List.foldl_append, parse_foldl_acc]
  rfl

theorem ParseBinaryToUnsigned_lt (l : List Char) : ParseBinaryToUnsigned l < 2 ^ l.length := by
  induction l with
  | nil => simp [ParseBinaryToUnsigned]
  | cons c l ih =>
    rw [ParseBinaryToUnsigned_cons]
    have h1 : bitVal c * 2 ^ l.length ≤ 1 * 2 ^ l.length :=
      Nat.mul_le_mul_right _ (bitVal_le_one c)
    have h2 : (2 : Nat) ^ (l.length + 1) = 2 ^ l.length + 2 ^ l.length := by ring
    simp only [List.length_cons]
    omega

theorem ParseBinaryToUnsigned_replicate_zero (k : Nat) (l : List Char) :
    ParseBinaryToUnsigned (List.replicate k '0' ++ l) = ParseBinaryToUnsigned l := by
  induction k with
  | zero => simp
  | succ k ih =>
    rw [List.replicate_succ, List.cons_append, ParseBinaryToUnsigned_cons]
    simpa [bitVal] using ih

theorem ParseBinaryToUnsigned_padStartZero (l : List Char) (n : Nat) :
    ParseBinaryToUnsigned (padStartZero l n) = ParseBinaryToUnsigned l :=
  ParseBinaryToUnsigned_replicate_zero _ l

theorem padStartZero_length (l : List Char) (n : Nat) (h : l.length ≤ n) :
    (padStartZero l n).length = n := by
  simp [padStartZero]
  omega

theorem parse_natToBinAux (fuel v : Nat) (h : v < fuel) :
    ParseBinaryToUnsigned (natToBinAux fuel v) = v := by
  induction fuel generalizing v with
  | zero => omega
  | succ fuel ih =>
    simp only [natToBinAux]
    split
    · rename_i hv
      interval_cases v <;> decide
    · rename_i hv
      have hd : v / 2 < fuel := by
        have := Nat.div_lt_self (show 0 < v by omega) (show 1 < 2 by omega)
        omega
      rw [ParseBinaryToUnsigned_append, ih _ hd]
      have hm : v % 2 = 0 ∨ v % 2 = 1 := by omega
      have hone : ParseBinaryToUnsigned [bitChar (v % 2)] = v % 2 := by
        rcases hm with hm | hm <;> rw [hm] <;> decide
      rw [hone]
      simp only [List.length_singleton]
      omega

theorem natToBinaryString_parse (v : Nat) :
    ParseBinaryToUnsigned (natToBinaryString v) = v :=
  parse_natToBinAux (v + 1) v (by omega)

theorem length_natToBinAux (fuel v n : Nat) (hf : v < fuel) (hn : v < 2 ^ n) (h1 : 1 ≤ n) :
    (natToBinAux fuel v).length ≤ n := by
  induction fuel generalizing v n with
  | zero => omega
  | succ fuel ih =>
    simp only [natToBinAux]
    split
    · simpa using h1
    · rename_i hv
      have hd : v / 2 < fuel := by
        have := Nat.div_lt_self (show 0 < v by omega) (show 1 < 2 by omega)
        omega
      have hpow : 2 ^ n = 2 * 2 ^ (n - 1) := by
        rw [← pow_succ']
        congr 1
        omega
      have hn2 : v / 2 < 2 ^ (n - 1) := by omega
      have h1' : 1 ≤ n - 1 := by
        rcases Nat.lt_or_ge n 2 with h | h
        · have : n = 1 := by omega
          subst this
          simp at hn
          omega
        · omega
      have := ih (v / 2) (n - 1) hd hn2 h1'
      simp only [List.length_append, List.length_singleton]
      omega

theorem natToBinaryString_length_le (v n : Nat) (hn : v < 2 ^ n) (h1 : 1 ≤ n) :
    (natToBinaryString v).length ≤ n :=
  length_natToBinAux (v + 1) v n (by omega) hn h1

theorem parse_take_drop (L : List Char) (i j : Nat) (hij : i ≤ j) (hj : j ≤ L.length) :
    ParseBinaryToUnsigned ((L.drop i).take (j - i)) =
      (ParseBinaryToUnsigned L / 2 ^ (L.length - j)) % 2 ^ (j - i) := by
  set A := L.take i with hA
  set M := (L.drop i).take (j - i) with hMdef
  set S := L.drop j with hS
  have hi : i ≤ L.length := le_trans hij hj
  have hLA : L = A ++ L.drop i := (List.take_append_drop i L).symm
  have hMS : L.drop i = M ++ S := by
    have h1 : S = (L.drop i).drop (j - i) := by
      rw [hS, List.drop_drop]
      congr 1
      omega
    rw [h1, hMdef]
    exact (List.take_append_drop (j - i) (L.drop i)).symm
  have hMlen : M.length = j - i := by
    rw [hMdef]
    simp [List.length_take, List.length_drop]
    omega
  have hSlen : S.length = L.length - j := by
    rw [hS]
    simp
  have hv : ParseBinaryToUnsigned L =
      (ParseBinaryToUnsigned A * 2 ^ (j - i) + ParseBinaryToUnsigned M) * 2 ^ (L.length - j) +
        ParseBinaryToUnsigned S := by
    conv_lhs => rw [hLA, hMS]
    rw [ParseBinaryToUnsigned_append, ParseBinaryToUnsigned_append, List.length_append,
      hMlen, hSlen, pow_add]
    ring
  have hMlt : ParseBinaryToUnsigned M < 2 ^ (j - i) := by
    have := ParseBinaryToUnsigned_lt M
    rwa [hMlen] at this
  have hSlt : ParseBinaryToUnsigned S < 2 ^ (L.length - j) := by
    have := ParseBinaryToUnsigned_lt S
    rwa [hSlen] at this
  rw [hv]
  have hd : 0 < 2 ^ (L.length - j) := Nat.pos_pow_of_pos _ (by omega)
  rw [Nat.mul_comm _ (2 ^ (L.length - j)), Nat.mul_add_div hd, Nat.div_eq_of_lt hSlt,
    Nat.add_zero, Nat.mul_comm (ParseBinaryToUnsigned A) (2 ^ (j - i)), Nat.mul_add_mod,
    Nat.mod_eq_of_lt hMlt]

theorem splitOnChar_no_sep (c : Char) (l : List Char) (h : c ∉ l) :
    splitOnChar c l = [l] := by
  induction l with
  | nil => rfl
  | cons a l ih =>
    have ha : a ≠ c := by
      intro hac
      exact h (hac ▸ List.mem_cons_self a l)
    have hl : c ∉ l := fun hc => h (List.mem_cons_of_mem a hc)
    simp only [splitOnChar, if_neg ha, ih hl]

theorem splitOnChar_append_sep (c : Char) (l1 l2 : List Char) (h : c ∉ l1) :
    splitOnChar c (l1 ++ c :: l2) = l1 :: splitOnChar c l2 := by
  induction l1 with
  | nil => simp [splitOnChar]
  | cons a l1 ih =>
    have ha : a ≠ c := by
      intro hac
      exact h (hac ▸ List.mem_cons_self a l1)
    have hl : c ∉ l1 := fun hc => h (List.mem_cons_of_mem a hc)
    simp only [List.cons_append, splitOnChar, if_neg ha, List.append_eq]
    rw [ih hl]

theorem drop_take_one (L : List Char) (i : Nat) (h : i < L.length) :
    (L.drop i).take 1 = [L[i]] := by
  rw [← List.getElem_cons_drop L i h]
  rfl

theorem GetIntSliceFromBinary_range (v n : Nat) (sa sb : String) (a b : Nat)
    (hv : v < 2 ^ n) (hpa : parseIntDec sa.data = some (a : Int))
    (hpb : parseIntDec sb.data = some (b : Int))
    (hta : '~' ∉ sa.data) (htb : '~' ∉ sb.data)
    (hab : a < b) (hbn : b < n) :
    GetIntSliceFromBinary v n (sa ++ "~" ++ sb) = some (v / 2 ^ a % 2 ^ (b - a + 1)) := by
  have hdata : (sa ++ "~" ++ sb).data = sa.data ++ '~' :: sb.data := by
    rw [String.data_append, String.data_append]
    simp
  have hlen : (natToBinaryString v).length ≤ n :=
    natToBinaryString_length_le v n hv (by omega)
  have hsplit : splitOnChar '~' (sa.data ++ '~' :: sb.data) = sa.data :: [sb.data] := by
    rw [splitOnChar_append_sep _ _ _ hta, splitOnChar_no_sep _ _ htb]
  have hmem : '~' ∈ sa.data ++ '~' :: sb.data := by simp
  have hgt : ¬ (natToBinaryString v).length > n := by omega
  simp only [GetIntSliceFromBinary, hdata, hsplit, hpa, hpb, Int.toNat_natCast]
  rw [if_neg hgt, if_pos hmem,
    if_pos (show (a : Int) < b ∧ 0 ≤ (a : Int) ∧ (b : Int) < n from
      ⟨by exact_mod_cast hab, Int.natCast_nonneg a, by exact_mod_cast hbn⟩)]
  have hpadlen : (padStartZero (natToBinaryString v) n).length = n :=
    padStartZero_length _ _ hlen
  have hparse : ParseBinaryToUnsigned (padStartZero (natToBinaryString v) n) = v := by
    rw [ParseBinaryToUnsigned_padStartZero, natToBinaryString_parse]
  have h1 : n - b - 1 ≤ n - a := by omega
  have h2 : n - a ≤ (padStartZero (natToBinaryString v) n).length := by omega
  have hpt := parse_take_drop (padStartZero (natToBinaryString v) n) (n - b - 1) (n - a) h1 h2
  rw [hparse, hpadlen] at hpt
  rw [hpt, show n - (n - a) = a by omega, show n - a - (n - b - 1) = b - a + 1 by omega]

theorem GetIntSliceFromBinary_single (v n : Nat) (sa : String) (a : Nat)
    (hv : v < 2 ^ n) (hpa : parseIntDec sa.data = some (a : Int))
    (hta : '~' ∉ sa.data) (han : a < n) :
    GetIntSliceFromBinary v n sa = some (v / 2 ^ a % 2) := by
  have hlen : (natToBinaryString v).length ≤ n :=
    natToBinaryString_length_le v n hv (by omega)
  have hgt : ¬ (natToBinaryString v).length > n := by omega
  have hpadlen : (padStartZero (natToBinaryString v) n).length = n :=
    padStartZero_length _ _ hlen
  have hparse : ParseBinaryToUnsigned (padStartZero (natToBinaryString v) n) = v := by
    rw [ParseBinaryToUnsigned_padStartZero, natToBinaryString_parse]
  have hidx : (((n : Int)) - (a : Int) - 1).toNat = n - a - 1 := by omega
  have hlt : n - a - 1 < (padStartZero (natToBinaryString v) n).length := by omega
  simp only [GetIntSliceFromBinary, hpa]
  rw [if_neg hgt, if_neg hta, if_pos (show (a : Int) < (n : Int) from by exact_mod_cast han),
    hidx, List.get?_eq_getElem?, List.getElem?_eq_getElem hlt]
  have hone : [(padStartZero (natToBinaryString v) n)[n - a - 1]] =
      ((padStartZero (natToBinaryString v) n).drop (n - a - 1)).take 1 :=
    (drop_take_one _ _ hlt).symm
  have hpt := parse_take_drop (padStartZero (natToBinaryString v) n) (n - a - 1) (n - a)
    (by omega) (by omega)
  rw [show n - a - (n - a - 1) = 1 by omega] at hpt
  rw [hparse, hpadlen, show n - (n - a) = a by omega] at hpt
  show some (ParseBinaryToUnsigned [(padStartZero (natToBinaryString v) n)[n - a - 1]]) = _
  rw [hone, hpt]
  norm_num

theorem filter_quoted (fmt : String)
    (hq : ∀ c ∈ fmt.data, notQuoteChar c = true) :
    ("\"" ++ fmt ++ "\"").data.filter notQuoteChar = fmt.data := by
  have hdata : ("\"" ++ fmt ++ "\"").data = '"' :: (fmt.data ++ ['"']) := by
    rw [String.data_append, String.data_append]
    simp
  rw [hdata, List.filter_cons, List.filter_append]
  have h1 : notQuoteChar '"' = false := by decide
  rw [h1, List.filter_eq_self.mpr hq]
  simp [h1]

theorem strip_quoted (fmt : String)
    (hnl : ∀ c ∈ fmt.data, ¬(c = '\n' ∨ c = '\r')) :
    stripOuterQuotes ("\"" ++ fmt ++ "\"") = fmt := by
  have hdata : ("\"" ++ fmt ++ "\"").data = '"' :: fmt.data ++ ['"'] := by
    rw [String.data_append, String.data_append]
    simp
  unfold stripOuterQuotes
  rw [hdata]
  have hcond : 2 ≤ ('"' :: fmt.data ++ ['"']).length ∧
      ('"' :: fmt.data ++ ['"']).head? = some '"' ∧
      ('"' :: fmt.data ++ ['"']).getLast? = some '"' ∧
      ((('"' :: fmt.data ++ ['"']).drop 1).dropLast.all fun c => !(c = '\n' ∨ c = '\r')) := by
    refine ⟨by simp, by simp, ?_, ?_⟩
    · rw [List.getLast?_concat]
    · have hdrop : ('"' :: fmt.data ++ ['"']).drop 1 = fmt.data ++ ['"'] := rfl
      rw [hdrop, List.dropLast_concat, List.all_eq_true]
      intro c hc
      simpa using hnl c hc
  rw [if_pos hcond]
  have hdrop : ('"' :: fmt.data ++ ['"']).drop 1 = fmt.data ++ ['"'] := rfl
  rw [hdrop, List.dropLast_concat]

theorem jsSplit_form_resp (fmt : String)
    (hc : ',' ∉ fmt.data) :
    jsSplit ',' ("0,@P,0,\"" ++ fmt ++ "\"") = ["0", "@P", "0", "\"" ++ fmt ++ "\""] := by
  have hdata : ("0,@P,0,\"" ++ fmt ++ "\"").data =
      ['0'] ++ ',' :: (['@', 'P'] ++ ',' :: (['0'] ++ ',' :: ('\"' :: fmt.data ++ ['\"']))) := by
    rw [String.data_append, String.data_append]
    rfl
  have hm : ',' ∉ '\"' :: fmt.data ++ ['\"'] := by
    intro hmem
    exact hc (by simpa using hmem)
  unfold jsSplit
  rw [hdata, splitOnChar_append_sep _ _ _ (by decide), splitOnChar_append_sep _ _ _ (by decide),
    splitOnChar_append_sep _ _ _ (by decide), splitOnChar_no_sep _ _ hm]
  have hq : String.mk ('\"' :: fmt.data ++ ['\"']) = "\"" ++ fmt ++ "\"" := by
    have : ("\"" ++ fmt ++ "\"").data = '\"' :: fmt.data ++ ['\"'] := by
      rw [String.data_append, String.data_append]
      rfl
    rw [← this]
  rw [List.map_cons, List.map_cons, List.map_cons, List.map_cons, List.map_nil, hq]

theorem jsSplit_j1708_resp (fmt : String) (hc : ',' ∉ fmt.data) :
    jsSplit ',' ("\"" ++ fmt ++ "\"") = ["\"" ++ fmt ++ "\""] := by
  have hdata : ("\"" ++ fmt ++ "\"").data = '\"' :: fmt.data ++ ['\"'] := by
    rw [String.data_append, String.data_append]
    rfl
  have hm : ',' ∉ '\"' :: fmt.data ++ ['\"'] := by
    intro hmem
    exact hc (by simpa using hmem)
  unfold jsSplit
  rw [hdata, splitOnChar_no_sep _ _ hm, List.map_cons, List.map_nil]
  have hq : String.mk ('\"' :: fmt.data ++ ['\"']) = "\"" ++ fmt ++ "\"" := by
    rw [← hdata]
  rw [hq]

theorem jsSplit_j1939_resp (fmt : String) (hc : ',' ∉ fmt.data) :
    jsSplit ',' ("1,\"" ++ fmt ++ "\"") = ["1", "\"" ++ fmt ++ "\""] := by
  have hdata : ("1,\"" ++ fmt ++ "\"").data =
      ['1'] ++ ',' :: ('\"' :: fmt.data ++ ['\"']) := by
    rw [String.data_append, String.data_append]
    rfl
  have hm : ',' ∉ '\"' :: fmt.data ++ ['\"'] := by
    intro hmem
    exact hc (by simpa using hmem)
  unfold jsSplit
  rw [hdata, splitOnChar_append_sep _ _ _ (by decide), splitOnChar_no_sep _ _ hm,
    List.map_cons, List.map_cons, List.map_nil]
  have hq : String.mk ('\"' :: fmt.data ++ ['\"']) = "\"" ++ fmt ++ "\"" := by
    have h2 : ("\"" ++ fmt ++ "\"").data = '\"' :: fmt.data ++ ['\"'] := by
      rw [String.data_append, String.data_append]
      rfl
    rw [← h2]
  rw [hq]

theorem save_form_present (s : ClientSocketState) (fmt : String)
    (hflag : s.isReportCustom = none) (hfmt : fmt ≠ "")
    (hchars : ∀ c ∈ fmt.data, notQuoteChar c = true ∧ c ≠ ',' ∧ c ≠ '\n' ∧ c ≠ '\r') :
    SaveReportFormat s ["$FORM", "0,@P,0,\"" ++ fmt ++ "\""] =
      { s with reportCustomFormat := some (((splitOnChar '%' fmt.data).map String.mk).tail),
               isReportCustom := some true } := by
  have hc : ',' ∉ fmt.data := fun h => (hchars _ h).2.1 rfl
  have hnl : ∀ c ∈ fmt.data, ¬(c = '\n' ∨ c = '\r') := by
    intro c h hx
    rcases hx with hx | hx
    · exact (hchars _ h).2.2.1 hx
    · exact (hchars _ h).2.2.2 hx
  have hq : ∀ c ∈ fmt.data, notQuoteChar c = true := fun c h => (hchars _ h).1
  have hsplit := jsSplit_form_resp fmt hc
  have htruthy : jsTruthyStr (stripOuterQuotes ("\"" ++ fmt ++ "\"")) = true := by
    rw [strip_quoted fmt hnl]
    simpa [jsTruthyStr] using hfmt
  have hfilter := filter_quoted fmt hq
  simp +decide only [SaveReportFormat, List.getD_cons_zero, List.getD_cons_succ, hsplit, hflag,
    htruthy, ReportFormatSplit, hfilter, cmdForm, cmdJ1708, cmdJ1939, if_true, if_false]

theorem save_j1708_present (s : ClientSocketState) (fmt : String)
    (hflag : s.isReportJ1708 = none) (hfmt : fmt ≠ "")
    (hchars : ∀ c ∈ fmt.data, notQuoteChar c = true ∧ c ≠ ',' ∧ c ≠ '\n' ∧ c ≠ '\r') :
    SaveReportFormat s ["$1708", "\"" ++ fmt ++ "\""] =
      { s with reportJ1XXXFormat := some (((splitOnChar '%' fmt.data).map String.mk).tail),
               isReportJ1708 := some true } := by
  have hc : ',' ∉ fmt.data := fun h => (hchars _ h).2.1 rfl
  have hnl : ∀ c ∈ fmt.data, ¬(c = '\n' ∨ c = '\r') := by
    intro c h hx
    rcases hx with hx | hx
    · exact (hchars _ h).2.2.1 hx
    · exact (hchars _ h).2.2.2 hx
  have hq : ∀ c ∈ fmt.data, notQuoteChar c = true := fun c h => (hchars _ h).1
  have hsplit := jsSplit_j1708_resp fmt hc
  have htruthy : jsTruthyStr (stripOuterQuotes ("\"" ++ fmt ++ "\"")) = true := by
    rw [strip_quoted fmt hnl]
    simpa [jsTruthyStr] using hfmt
  have hfilter := filter_quoted fmt hq
  simp +decide only [SaveReportFormat, List.getD_cons_zero, List.getD_cons_succ, hsplit, hflag,
    htruthy, ReportFormatSplit, hfilter, cmdForm, cmdJ1708, cmdJ1939, if_true, if_false]

theorem save_j1939_present (s : ClientSocketState) (fmt : String)
    (hflag : s.isReportJ1939 = none) (hfmt : fmt ≠ "")
    (hchars : ∀ c ∈ fmt.data, notQuoteChar c = true ∧ c ≠ ',' ∧ c ≠ '\n' ∧ c ≠ '\r') :
    SaveReportFormat s ["$FMSC", "1,\"" ++ fmt ++ "\""] =
      { s with reportJ1XXXFormat := some (((splitOnChar '%' fmt.data).map String.mk).tail),
               isReportJ1939 := some true } := by
  have hc : ',' ∉ fmt.data := fun h => (hchars _ h).2.1 rfl
  have hnl : ∀ c ∈ fmt.data, ¬(c = '\n' ∨ c = '\r') := by
    intro c h hx
    rcases hx with hx | hx
    · exact (hchars _ h).2.2.1 hx
    · exact (hchars _ h).2.2.2 hx
  have hq : ∀ c ∈ fmt.data, notQuoteChar c = true := fun c h => (hchars _ h).1
  have hsplit := jsSplit_j1939_resp fmt hc
  have htruthy : jsTruthyStr (stripOuterQuotes ("\"" ++ fmt ++ "\"")) = true := by
    rw [strip_quoted fmt hnl]
    simpa [jsTruthyStr] using hfmt
  have hfilter := filter_quoted fmt hq
  simp +decide only [SaveReportFormat, List.getD_cons_zero, List.getD_cons_succ, hsplit, hflag,
    htruthy, ReportFormatSplit, hfilter, cmdForm, cmdJ1708, cmdJ1939, if_true, if_false]

theorem save_form_absent (s : ClientSocketState) (hflag : s.isReportCustom = none) :
    SaveReportFormat s ["$FORM", "0,@P,0,\"\""] = { s with isReportCustom := some false } := by
  have hsplit : jsSplit ',' "0,@P,0,\"\"" = ["0", "@P", "0", "\"\""] := rfl
  have htruthy : jsTruthyStr (stripOuterQuotes "\"\"") = false := rfl
  simp +decide only [SaveReportFormat, List.getD_cons_zero, List.getD_cons_succ, hsplit, hflag,
    htruthy, cmdForm, cmdJ1708, cmdJ1939, if_true, if_false]

theorem save_j1708_absent (s : ClientSocketState) (hflag : s.isReportJ1708 = none) :
    SaveReportFormat s ["$1708", "\"\""] = { s with isReportJ1708 := some false } := by
  have hsplit : jsSplit ',' "\"\"" = ["\"\""] := rfl
  have htruthy : jsTruthyStr (stripOuterQuotes "\"\"") = false := rfl
  simp +decide only [SaveReportFormat, List.getD_cons_zero, List.getD_cons_succ, hsplit, hflag,
    htruthy, cmdForm, cmdJ1708, cmdJ1939, if_true, if_false]

theorem save_j1939_absent (s : ClientSocketState) (hflag : s.isReportJ1939 = none) :
    SaveReportFormat s ["$FMSC", "1,\"\""] = { s with isReportJ1939 := some false } := by
  have hsplit : jsSplit ',' "1,\"\"" = ["1", "\"\""] := rfl
  have htruthy : jsTruthyStr (stripOuterQuotes "\"\"") = false := rfl
  simp +decide only [SaveReportFormat, List.getD_cons_zero, List.getD_cons_succ, hsplit, hflag,
    htruthy, cmdForm, cmdJ1708, cmdJ1939, if_true, if_false]


theorem beBytes_readBE (l : List Nat) (h : ∀ b ∈ l, b < 256) :
    beBytes l.length (readBE l) = l := by
  induction l using List.reverseRecOn with
  | nil => rfl
  | append_singleton l b ih =>
    have hb : b < 256 := h b (by simp)
    have hl : ∀ x ∈ l, x < 256 := fun x hx => h x (by simp [hx])
    have hr : readBE (l ++ [b]) = 256 * readBE l + b := by
      show (l ++ [b]).foldl _ 0 = _
      rw [List.foldl_append]
      rfl
    rw [List.length_append, List.length_singleton, hr]
    show beBytes (l.length + 1) _ = _
    simp only [beBytes]
    have hdiv : (256 * readBE l + b) / 256 = readBE l := by omega
    have hmod : (256 * readBE l + b) % 256 = b := by omega
    rw [hdiv, hmod, ih hl]

/-! ## Claim theorems -/

/-- C1 (counterexample): a valid 12-byte keep-alive frame `FE 02` carrying
device id 1 and sequence number 0 is decoded (device id and sequence are
set as documented) but NO acknowledgment is emitted for it — the socket
write list is empty, refuting the claim that every processed keep-alive
frame gets the 12-byte acknowledgment. -/
theorem C1_keepalive_seq_zero_counterexample :
    ([0xFE, 0x02, 0, 0, 0, 0, 0, 0, 0, 1, 0, 0] : List Nat).take 2 = [0xFE, 0x02] ∧
    ([0xFE, 0x02, 0, 0, 0, 0, 0, 0, 0, 1, 0, 0] : List Nat).length = 12 ∧
    (RecievedData [] ⟨none, none, none, none⟩ 5 (initialClientState 0)
        [0xFE, 0x02, 0, 0, 0, 0, 0, 0, 0, 1, 0, 0]).map
        (fun r => (r.1.deviceID, r.1.seqNum, r.2.socketWrites)) =
      .ok (some (JSNumV.int 1), some (JSNumV.int 0), []) :=
  ⟨rfl, rfl, rfl⟩

/-- C1 (amended): for every 12-byte keep-alive frame with marker
`0xFE 0x02` processed by `RecievedData`, the device identifier is set to
the big-endian 64-bit integer at offsets 2..10 and the sequence number to
the big-endian 16-bit integer at offsets 10..12 — unconditionally; the
acknowledgment written for the frame is exactly the 12-byte frame
`0xFE 0x02` followed by the device identifier as 8 big-endian bytes and
the sequence number as 2 big-endian bytes (which reproduces the inbound
frame byte for byte) when both decoded values are non-zero, and nothing
otherwise. -/
theorem C1_keepalive_decode_and_ack (pat : List (String × PatternInfo)) (env : PictureEnv)
    (now : Nat) (s : ClientSocketState) (buffer : List Nat)
    (hlen : buffer.length = 12) (hpfx : buffer.take 2 = [0xFE, 0x02])
    (hbytes : ∀ x ∈ buffer, x < 256) :
    RecievedData pat env now s buffer =
      .ok ({ s with deviceID := some (.int (readBE ((buffer.drop 2).take 8))),
                    seqNum := some (.int (readBE ((buffer.drop 10).take 2))),
                    lastAlive := now },
        { socketWrites :=
            if readBE ((buffer.drop 2).take 8) ≠ 0 ∧ readBE ((buffer.drop 10).take 2) ≠ 0 then
              [[0xFE, 0x02] ++ beBytes 8 (readBE ((buffer.drop 2).take 8)) ++
                beBytes 2 (readBE ((buffer.drop 10).take 2))]
            else [],
          dbWrites := [], picWrites := [] }) ∧
    [0xFE, 0x02] ++ beBytes 8 (readBE ((buffer.drop 2).take 8)) ++
        beBytes 2 (readBE ((buffer.drop 10).take 2)) = buffer := by
  have h8len : ((buffer.drop 2).take 8).length = 8 := by
    simp [List.length_take, List.length_drop, hlen]
  have h2len : ((buffer.drop 10).take 2).length = 2 := by
    simp [List.length_take, List.length_drop, hlen]
  have hb8 : ∀ x ∈ (buffer.drop 2).take 8, x < 256 :=
    fun x hx => hbytes x (List.drop_subset 2 buffer (List.take_subset 8 (buffer.drop 2) hx))
  have hb2 : ∀ x ∈ (buffer.drop 10).take 2, x < 256 :=
    fun x hx => hbytes x (List.drop_subset 10 buffer (List.take_subset 2 (buffer.drop 10) hx))
  have e8 : beBytes 8 (readBE ((buffer.drop 2).take 8)) = (buffer.drop 2).take 8 := by
    have h := beBytes_readBE ((buffer.drop 2).take 8) hb8
    rwa [h8len] at h
  have e2 : beBytes 2 (readBE ((buffer.drop 10).take 2)) = (buffer.drop 10).take 2 := by
    have h := beBytes_readBE ((buffer.drop 10).take 2) hb2
    rwa [h2len] at h
  have hreassemble : [0xFE, 0x02] ++ beBytes 8 (readBE ((buffer.drop 2).take 8)) ++
      beBytes 2 (readBE ((buffer.drop 10).take 2)) = buffer := by
    rw [e8, e2, ← hpfx]
    have e10 : (buffer.drop 10).take 2 = buffer.drop 10 :=
      List.take_of_length_le (by simp [hlen])
    have e10' : buffer.drop 10 = (buffer.drop 2).drop 8 := by
      rw [List.drop_drop]
    rw [e10, e10', List.append_assoc, List.take_append_drop, List.take_append_drop]
  refine ⟨?_, hreassemble⟩
  simp only [RecievedData, hpfx, hlen, and_self, if_true, reduceIte, HandleKeepAliveMsg,
    Bind.bind, Except.bind, Pure.pure, Except.pure, noEffects, SendACK, ackMsg,
    Int.toNat_natCast, List.nil_append, ne_eq, Int.natCast_eq_zero]

/-- C1 (witness): the keep-alive frame with device id 257 and sequence 3
is decoded and acknowledged with the identical 12-byte frame; the frame
with device id 2 and sequence 0 is still decoded but acknowledged with
nothing. -/
theorem C1_keepalive_decode_and_ack_witness :
    (RecievedData [] ⟨none, none, none, none⟩ 7 (initialClientState 0)
        [0xFE, 0x02, 0, 0, 0, 0, 0, 0, 1, 1, 0, 3] =
      .ok ({ initialClientState 0 with
               deviceID := some (.int 257), seqNum := some (.int 3), lastAlive := 7 },
        { socketWrites := [[0xFE, 0x02, 0, 0, 0, 0, 0, 0, 1, 1, 0, 3]],
          dbWrites := [], picWrites := [] })) ∧
    (RecievedData [] ⟨none, none, none, none⟩ 7 (initialClientState 0)
        [0xFE, 0x02, 0, 0, 0, 0, 0, 0, 0, 2, 0, 0] =
      .ok ({ initialClientState 0 with
               deviceID := some (.int 2), seqNum := some (.int 0), lastAlive := 7 },
        { socketWrites := [], dbWrites := [], picWrites := [] })) := by
  constructor
  · have h := C1_keepalive_decode_and_ack [] ⟨none, none, none, none⟩ 7 (initialClientState 0)
      [0xFE, 0x02, 0, 0, 0, 0, 0, 0, 1, 1, 0, 3] rfl rfl (by decide)
    rw [h.1]
    rfl
  · have h := C1_keepalive_decode_and_ack [] ⟨none, none, none, none⟩ 7 (initialClientState 0)
      [0xFE, 0x02, 0, 0, 0, 0, 0, 0, 0, 2, 0, 0] rfl rfl (by decide)
    rw [h.1]
    rfl

/-- C2: starting from a connection whose three customization flags are
all unknown, recording the three format-query responses and then
resolving: when exactly one response carries a non-empty quoted format
string, `UpdateReportFormatStatus` sets the report format type to that
customization and the effective field list to the base field names
followed by the format's ordered token list (the `'%'`-split of the
format with the quotes stripped; the split's leading empty element, from
the leading `'%'`, is discarded); when all three responses carry an
empty quoted format, the type is `base` and the effective list is the
base field names with nothing appended. -/
theorem C2_format_negotiation (s : ClientSocketState) (fmt : String)
    (hC : s.isReportCustom = none) (h8 : s.isReportJ1708 = none) (h9 : s.isReportJ1939 = none)
    (hfmt : fmt ≠ "")
    (hchars : ∀ c ∈ fmt.data, notQuoteChar c = true ∧ c ≠ ',' ∧ c ≠ '\n' ∧ c ≠ '\r') :
    (let r := UpdateReportFormatStatus
        (SaveReportFormat (SaveReportFormat (SaveReportFormat s
          ["$FORM", "0,@P,0,\"" ++ fmt ++ "\""]) ["$1708", "\"\""]) ["$FMSC", "1,\"\""])
     r.1.reportFormatType = some "custom" ∧
       r.1.reportFinalFormat =
         some (reportBaseFormat ++ ((splitOnChar '%' fmt.data).map String.mk).tail) ∧
       r.2 = true) ∧
    (let r := UpdateReportFormatStatus
        (SaveReportFormat (SaveReportFormat (SaveReportFormat s
          ["$FORM", "0,@P,0,\"\""]) ["$1708", "\"" ++ fmt ++ "\""]) ["$FMSC", "1,\"\""])
     r.1.reportFormatType = some "j1708" ∧
       r.1.reportFinalFormat =
         some (reportBaseFormat ++ ((splitOnChar '%' fmt.data).map String.mk).tail) ∧
       r.2 = true) ∧
    (let r := UpdateReportFormatStatus
        (SaveReportFormat (SaveReportFormat (SaveReportFormat s
          ["$FORM", "0,@P,0,\"\""]) ["$1708", "\"\""]) ["$FMSC", "1,\"" ++ fmt ++ "\""])
     r.1.reportFormatType = some "j1939" ∧
       r.1.reportFinalFormat =
         some (reportBaseFormat ++ ((splitOnChar '%' fmt.data).map String.mk).tail) ∧
       r.2 = true) ∧
    (let r := UpdateReportFormatStatus
        (SaveReportFormat (SaveReportFormat (SaveReportFormat s
          ["$FORM", "0,@P,0,\"\""]) ["$1708", "\"\""]) ["$FMSC", "1,\"\""])
     r.1.reportFormatType = some "base" ∧
       r.1.reportFinalFormat = some reportBaseFormat ∧
       r.2 = true) := by
  refine ⟨?_, ?_, ?_, ?_⟩
  · rw [save_form_present s fmt hC hfmt hchars, save_j1708_absent, save_j1939_absent]
    · simp +decide [UpdateReportFormatStatus]
    · exact h9
    · exact h8
  · rw [save_form_absent s hC, save_j1708_present, save_j1939_absent]
    · simp +decide [UpdateReportFormatStatus]
    · exact h9
    · exact h8
    · exact hfmt
    · exact hchars
  · rw [save_form_absent s hC, save_j1708_absent, save_j1939_present]
    · simp +decide [UpdateReportFormatStatus]
    · exact h9
    · exact hfmt
    · exact hchars
    · exact h8
  · rw [save_form_absent s hC, save_j1708_absent, save_j1939_absent]
    · simp +decide [UpdateReportFormatStatus]
    · exact h9
    · exact h8

/-- C2 (witness): with the custom format `"%MV%BV"` present and the other
two responses empty, resolution yields type `custom` and the base fields
followed by `MV` and `BV`. -/
theorem C2_format_negotiation_witness :
    (UpdateReportFormatStatus (SaveReportFormat (SaveReportFormat (SaveReportFormat
        (initialClientState 0) ["$FORM", "0,@P,0,\"%MV%BV\""]) ["$1708", "\"\""])
        ["$FMSC", "1,\"\""])).1.reportFormatType = some "custom" ∧
    (UpdateReportFormatStatus (SaveReportFormat (SaveReportFormat (SaveReportFormat
        (initialClientState 0) ["$FORM", "0,@P,0,\"%MV%BV\""]) ["$1708", "\"\""])
        ["$FMSC", "1,\"\""])).1.reportFinalFormat = some (reportBaseFormat ++ ["MV", "BV"]) := by
  have h := C2_format_negotiation (initialClientState 0) "%MV%BV" rfl rfl rfl (by decide)
    (by decide)
  obtain ⟨⟨h1, h2, _⟩, _⟩ := h
  exact ⟨h1, h2⟩

/-- C3: for every `v < 2 ^ n` and inclusive bit range `a~b` with
`a < b < n` (bit 0 the least significant), `GetIntSliceFromBinary`
returns exactly `(v / 2 ^ a) % 2 ^ (b - a + 1)`; and for a single-bit
slice `a` with `a < n` it returns `(v / 2 ^ a) % 2`. The slice argument
is any string spelling the endpoints in decimal. -/
theorem C3_bit_slice_roundtrip :
    (∀ (v n a b : Nat) (sa sb : String),
      v < 2 ^ n → parseIntDec sa.data = some (a : Int) → parseIntDec sb.data = some (b : Int) →
      '~' ∉ sa.data → '~' ∉ sb.data → a < b → b < n →
      GetIntSliceFromBinary v n (sa ++ "~" ++ sb) = some (v / 2 ^ a % 2 ^ (b - a + 1))) ∧
    (∀ (v n a : Nat) (sa : String),
      v < 2 ^ n → parseIntDec sa.data = some (a : Int) → '~' ∉ sa.data → a < n →
      GetIntSliceFromBinary v n sa = some (v / 2 ^ a % 2)) :=
  ⟨fun v n a b sa sb hv hpa hpb hta htb hab hbn =>
    GetIntSliceFromBinary_range v n sa sb a b hv hpa hpb hta htb hab hbn,
   fun v n a sa hv hpa hta han => GetIntSliceFromBinary_single v n sa a hv hpa hta han⟩

/-- C3 (witness): slicing bits 1..2 of 11 (binary `1011`) in width 4
gives 1, and bit 3 alone gives 1. -/
theorem C3_bit_slice_roundtrip_witness :
    GetIntSliceFromBinary 11 4 "1~2" = some 1 ∧ GetIntSliceFromBinary 11 4 "3" = some 1 := by
  constructor
  · have h := C3_bit_slice_roundtrip.1 11 4 1 2 "1" "2" (by decide) (by decide) (by decide)
      (by decide) (by decide) (by decide) (by decide)
    simpa using h
  · have h := C3_bit_slice_roundtrip.2 11 4 3 "3" (by decide) (by decide) (by decide) (by decide)
    simpa using h

/-- C4: with the configured coefficients `pressure_slope = 0.3625`,
`pressure_const = 0`, `temp_slope = 3`, `temp_const = -424`, the raw value
`"D0DC9911"` decodes to exactly `tire_temp_1 = 35` (kind int) then
`tire_pressure_1 = 6.1625` (kind float), in that order; and every raw
value whose length is not a multiple of 8 yields `none`, for any field
definition. -/
theorem C4_tpms_decode :
    GetValueTPMS "D0DC9911" (PatternInfo.mk "tpms" "tpms" none none [] []
        (some 0.3625) (some 0) (some 3) (some (-424))) =
      some [("tire_temp_1", "int", JSVal.num 35),
        ("tire_pressure_1", "float", JSVal.num 6.1625)] ∧
    (∀ (raw : String) (p : PatternInfo), raw.data.length % 8 ≠ 0 → GetValueTPMS raw p = none) := by
  constructor
  · have hd : ("D0DC9911" : String).data = ['D', '0', 'D', 'C', '9', '9', '1', '1'] := rfl
    simp +decide [GetValueTPMS, hd, chunk8, jsLtZero, PatternInfo.pressure_slope,
      PatternInfo.pressure_const, PatternInfo.temp_slope, PatternInfo.temp_const,
      parseIntHex, isHexDigit, hexVal, List.takeWhile_cons]
    norm_num
  · intro raw p h
    unfold GetValueTPMS
    rw [if_pos h]

/-- C4 (witness): a 7-character raw value is rejected. -/
theorem C4_tpms_decode_witness :
    GetValueTPMS "D0DC991" (PatternInfo.mk "tpms" "tpms" none none [] []
        (some 0.3625) (some 0) (some 3) (some (-424))) = none :=
  C4_tpms_decode.2 "D0DC991" _ (by decide)

/-- C5 (code bug): a g-force group whose hex parse fails does NOT get
omitted — `parseInt` yields `NaN`, its stringification fails the binary
test in `ParseBinaryToSinged`, and the decode throws
`Error('Invalid binary string')` (contradicting the documented
`undefined`-on-failure contract of `ParseHexStringToSignedInt`). A fully
valid 12-hex-character input does decode to the three int values
`<name>_x`, `<name>_y`, `<name>_z`. -/
theorem C5_gforce_invalid_group_throws :
    GetValueGForce "ZZZZ00010002"
        (PatternInfo.mk "gf" "g_force" none none [] [] none none none none) =
      .error "Invalid binary string" ∧
    GetValueGForce "D0DC00010002"
        (PatternInfo.mk "gf" "g_force" none none [] [] none none none none) =
      .ok (some [("gf_x", "int", JSVal.num 53468), ("gf_y", "int", JSVal.num 1),
        ("gf_z", "int", JSVal.num 2)]) :=
  ⟨rfl, rfl⟩

/-- C6: a transfer whose first packet declares total-package count 3 is
not done after the packets with current-package indices 1 and 2 and
becomes done exactly when the index-3 packet is applied; after every
step the accumulated content is the concatenation of the payload chunks
(the bytes after the 8-byte packet header) in application order, and
`isDone` coincides with `last-seen index = total count` after every
operation. Header bytes other than the relevant indices are arbitrary. -/
theorem C6_picture_reassembly (env : PictureEnv) (dev : Option JSNumV)
    (a1 b1 c1 e1 p1 q1 a2 b2 c2 e2 t2 p2 q2 a3 b3 c3 e3 t3 p3 q3 : Nat)
    (d1 d2 d3 : List Nat) :
    let pk1 := a1 :: b1 :: c1 :: e1 :: 1 :: 3 :: p1 :: q1 :: d1
    let pk2 := a2 :: b2 :: c2 :: e2 :: 2 :: t2 :: p2 :: q2 :: d2
    let pk3 := a3 :: b3 :: c3 :: e3 :: 3 :: t3 :: p3 :: q3 :: d3
    let st0 := pictureNew env pk1 dev
    let st1 := (AddPicturePackage st0 pk2).1
    let st2 := (AddPicturePackage st1 pk3).1
    Picture.isDone st0 = false ∧ Picture.isDone st1 = false ∧ Picture.isDone st2 = true ∧
      st0.pictureContent = d1 ∧ st1.pictureContent = d1 ++ d2 ∧
      st2.pictureContent = d1 ++ d2 ++ d3 ∧
      Picture.isDone st0 = (st0.currentPackageID == st0.totalPackageCount) ∧
      Picture.isDone st1 = (st1.currentPackageID == st1.totalPackageCount) ∧
      Picture.isDone st2 = (st2.currentPackageID == st2.totalPackageCount) :=
  ⟨rfl, rfl, rfl, rfl, rfl, rfl, rfl, rfl, rfl⟩

/-- C7: while the report format is unresolved, an ASCII report frame
produces no effect at all (in particular nothing is written to the
time-series sink) and changes nothing in the connection state beyond the
device id and sequence number taken from the frame header — the report
body is not buffered anywhere, so a later format resolution cannot
decode bodies received before it. -/
theorem C7_premature_report_dropped (pat : List (String × PatternInfo))
    (s : ClientSocketState) (buffer : List Nat) (h : s.reportFinalFormat = none) :
    (HandleReportMsgAscii pat s buffer).map
        (fun r => (r.2, r.1.reportFinalFormat, r.1.reportType, r.1.isReportCustom,
          r.1.isReportJ1708, r.1.isReportJ1939, r.1.reportFormatType, r.1.reportJ1XXXFormat,
          r.1.reportCustomFormat, r.1.picture, r.1.lastAlive)) =
      .ok (noEffects, none, s.reportType, s.isReportCustom, s.isReportJ1708, s.isReportJ1939,
        s.reportFormatType, s.reportJ1XXXFormat, s.reportCustomFormat, s.picture, s.lastAlive) := by
  by_cases hid : s.deviceID = none <;>
    simp [HandleReportMsgAscii, hid, h, Except.map, Pure.pure, Except.pure]

/-- C7 (witness): a fresh connection (format unresolved) drops a report
frame without effects or buffering. -/
theorem C7_premature_report_dropped_witness :
    (HandleReportMsgAscii [] (initialClientState 0) [0x40, 0x50, 0x2C, 0x31]).map
        (fun r => (r.2, r.1.reportFinalFormat, r.1.reportType, r.1.isReportCustom,
          r.1.isReportJ1708, r.1.isReportJ1939, r.1.reportFormatType, r.1.reportJ1XXXFormat,
          r.1.reportCustomFormat, r.1.picture, r.1.lastAlive)) =
      .ok (noEffects, none, none, none, none, none, none, none, none, none, 0) :=
  C7_premature_report_dropped [] (initialClientState 0) [0x40, 0x50, 0x2C, 0x31] rfl

/-- C8 (code bug): with `pressure_const` not configured (but the other
three coefficients present), `GetValueTPMS "D0DC9911"` does NOT return
`none`: the broken guard `!pressure_const == undefined` is always false
in JS, so the decode proceeds and emits `tire_temp_1 = 35` together with
a `NaN` pressure value. -/
theorem C8_tpms_missing_pressure_const :
    GetValueTPMS "D0DC9911" (PatternInfo.mk "tpms" "tpms" none none [] []
        (some 0.3625) none (some 3) (some (-424))) =
      some [("tire_temp_1", "int", JSVal.num 35), ("tire_pressure_1", "float", JSVal.nan)] := by
  have hd : ("D0DC9911" : String).data = ['D', '0', 'D', 'C', '9', '9', '1', '1'] := rfl
  simp +decide [GetValueTPMS, hd, chunk8, jsLtZero, PatternInfo.pressure_slope,
    PatternInfo.pressure_const, PatternInfo.temp_slope, PatternInfo.temp_const,
    parseIntHex, isHexDigit, hexVal, List.takeWhile_cons]
  norm_num

/-- C9: `SendACK` writes nothing when the sequence number is 0 (whatever
the device identifier holds) or when the device identifier is 0: both
are falsy in JS, so a classified frame carrying sequence number 0 is
never acknowledged even though identifier and sequence are known. -/
theorem C9_sendack_zero_suppressed :
    (∀ (s : ClientSocketState) (d : JSNumV),
      s.deviceID = some d → s.seqNum = some (JSNumV.int 0) → SendACK s = []) ∧
    (∀ (s : ClientSocketState) (q : JSNumV),
      s.deviceID = some (JSNumV.int 0) → s.seqNum = some q → SendACK s = []) := by
  constructor
  · intro s d hd hq
    unfold SendACK
    rw [hd, hq]
    cases d <;> simp
  · intro s q hd hq
    unfold SendACK
    rw [hd, hq]
    cases q <;> simp

/-- C9 (witness): device id 5 with sequence number 0 produces no write. -/
theorem C9_sendack_zero_suppressed_witness :
    SendACK { initialClientState 0 with
              deviceID := some (JSNumV.int 5), seqNum := some (JSNumV.int 0) } = [] :=
  C9_sendack_zero_suppressed.1 _ (JSNumV.int 5) rfl rfl

/-- C10: when no transfer is in progress and a picture frame's
current-package index equals its declared total-package count, the
handler creates the transfer (already done) but performs no write to
either storage sink and does not discard it: the connection's
picture-transfer slot stays occupied. -/
theorem C10_single_packet_transfer (env : PictureEnv) (s : ClientSocketState)
    (buffer : List Nat) (hpic : s.picture = none)
    (hdone : (ExtractPictureFrame (buffer.drop 16)).picturePackageID =
      (ExtractPictureFrame (buffer.drop 16)).pictureTotalID) :
    HandlePictureMsg env s buffer =
      ({ s with seqNum := some (.int (readBE ((buffer.drop 6).take 2))),
                picture := some (pictureNew env (buffer.drop 16) s.deviceID) }, noEffects) ∧
    Picture.isDone (pictureNew env (buffer.drop 16) s.deviceID) = true := by
  constructor
  · simp only [HandlePictureMsg, hpic]
  · simp [Picture.isDone, pictureNew, hdone]

/-- C10 (witness): a single-packet picture frame (index 1 of 1) leaves an
occupied, already-done transfer and no writes. -/
theorem C10_single_packet_transfer_witness :
    HandlePictureMsg ⟨none, none, none, none⟩ (initialClientState 0)
        [0x40, 0x52, 0, 0, 0, 0, 0, 7, 0, 0, 0, 0, 0, 0, 0, 2, 0, 0, 0, 0, 1, 1, 0, 1, 9] =
      ({ initialClientState 0 with
          seqNum := some (.int 7),
          picture := some (pictureNew ⟨none, none, none, none⟩ [0, 0, 0, 0, 1, 1, 0, 1, 9] none) },
        noEffects) ∧
    Picture.isDone (pictureNew ⟨none, none, none, none⟩ [0, 0, 0, 0, 1, 1, 0, 1, 9] none) = true :=
  C10_single_packet_transfer ⟨none, none, none, none⟩ (initialClientState 0)
    [0x40, 0x52, 0, 0, 0, 0, 0, 7, 0, 0, 0, 0, 0, 0, 0, 2, 0, 0, 0, 0, 1, 1, 0, 1, 9] rfl rfl
